import Mathlib

/-!
Verification of the simulation & billing engine of the `simulador-solar`
repository, shallowly embedded in Lean 4.

Numeric model: the TypeScript code computes with IEEE doubles; the embedding
uses exact rationals (`ℚ`), which supports every arithmetic operation the
engine performs (+, -, *, /, min, max, abs, comparisons).  Transcendental
functions used by the shadow model (`Math.cos`, `Math.tan`, `Math.atan`) are
modelled as abstract rational-valued function parameters, constrained only by
the properties the source relies on (see `TrigModel`).

Sources embedded:
- `src/utils/tariffSchedule.ts` — regulated 2.0TD period resolver;
- the simulation orchestrator (`runSimulation`) — battery dispatch loop,
  monthly billing convergence loop, solar production index;
- `src/utils/billCalculator.ts` — `calculateBill`;
- `src/utils/shadows.ts` — `calculateShadowFactor`.
-/

namespace SimuladorSolar

/-! ## Tariff period resolver (`tariffSchedule.ts`) -/

/-- Spanish national holidays (fixed dates), as (month, day) pairs; mirrors
`NATIONAL_HOLIDAYS` (`'01-01'`, `'01-06'`, `'05-01'`, `'08-15'`, `'10-12'`,
`'11-01'`, `'12-06'`, `'12-08'`, `'12-25'`). -/
def NATIONAL_HOLIDAYS : List (Nat × Nat) :=
  [(1, 1), (1, 6), (5, 1), (8, 15), (10, 12), (11, 1), (12, 6), (12, 8), (12, 25)]

/-- Sakamoto table used to compute the Gregorian day of week. -/
def dowTable : List Nat := [0, 3, 2, 5, 0, 3, 5, 1, 4, 6, 2, 4]

/-- Day of week of a proleptic-Gregorian calendar date, 0 = Sunday … 6 =
Saturday; embeds the JavaScript `new Date(dateStr + 'T00:00:00Z').getUTCDay()`
computation used by the resolver (Sakamoto's method, valid for year ≥ 1). -/
def dayOfWeek (y m d : Nat) : Nat :=
  let y' := if m < 3 then y - 1 else y
  (y' + y' / 4 - y' / 100 + y' / 400 + dowTable.getD (m - 1) 0 + d) % 7

/-- Mirrors `isWeekend`: `getUTCDay()` is 0 (Sunday) or 6 (Saturday). -/
def isWeekend (y m d : Nat) : Bool :=
  dayOfWeek y m d == 0 || dayOfWeek y m d == 6

/-- Mirrors `isNationalHoliday`: the month-day pair is in the fixed list. -/
def isNationalHoliday (m d : Nat) : Bool :=
  NATIONAL_HOLIDAYS.contains (m, d)

/-- Mirrors `isHolidayOrWeekend`. -/
def isHolidayOrWeekend (y m d : Nat) : Bool :=
  isWeekend y m d || isNationalHoliday m d

/-- Mirrors `getTariffPeriod(dateStr, hour)` for the Spanish 2.0TD tariff;
the date string `YYYY-MM-DD` is embedded as the triple `(y, m, d)` and
`hour` follows the 1–24 Spanish CSV convention. -/
def getTariffPeriod (y m d : Nat) (hour : Nat) : String :=
  if isWeekend y m d || isNationalHoliday m d then "valle"
  else
    let h := hour
    if 1 ≤ h ∧ h ≤ 8 then "valle"
    else if (11 ≤ h ∧ h ≤ 14) ∨ (19 ≤ h ∧ h ≤ 22) then "punta"
    else "llano"

/-! ## Battery dispatch (`runSimulation` hourly loop) -/

/-- Battery parameters, mirroring the `Battery` record fields the simulation
reads (`capacityKwh`, `maxPowerW`, `roundTripEfficiency`). -/
structure BatterySpec where
  capacityKwh : ℚ
  maxPowerW : ℚ
  roundTripEfficiency : ℚ
deriving DecidableEq

/-- Per-hour context fed to the loop body: the consumption record fields plus
the values the orchestrator computes outside the dispatch (solar index lookup,
resolved periods, batch-resolved prices, power-term pricing). -/
structure HourContext where
  date : String
  hour : Nat
  consumption : ℚ
  solarProduction : ℚ
  tariffPeriod : String
  energyPrice : ℚ
  powerTermCost : ℚ
  powerTermPrice : ℚ
deriving DecidableEq

/-- Mirrors the `HourlySimResult` interface of `billCalculator.ts`. -/
structure HourlySimResult where
  date : String
  hour : Nat
  consumption : ℚ
  solarProduction : ℚ
  batteryCharge : ℚ
  batteryLoss : ℚ
  batteryLevel : ℚ
  gridPurchase : ℚ
  gridSurplus : ℚ
  tariffPeriod : String
  energyPrice : ℚ
  powerTermCost : ℚ
  powerTermPrice : ℚ
  energyCost : ℚ
  surplusValue : ℚ
deriving DecidableEq

/-- Outcome of the battery-dispatch block of the hourly loop: the values of
the mutable locals `batteryCharge`, `batteryLoss`, `batteryLevel`, `net`
after the `if (battery) { ... }` block. -/
structure DispatchOut where
  batteryCharge : ℚ
  batteryLoss : ℚ
  batteryLevel : ℚ
  net : ℚ
deriving DecidableEq

/-- Battery-dispatch block of `runSimulation` for one hour, given the level
carried from the previous hour and `net = consumption − solarProduction`.
With no battery the block is skipped.  Derived constants are as in the
source: `batteryMaxPowerKw = maxPowerW / 1000`,
`batteryEfficiency = roundTripEfficiency / 100`. -/
def dispatchHour (battery : Option BatterySpec) (batteryLevel : ℚ) (net : ℚ) :
    DispatchOut :=
  match battery with
  | none => ⟨0, 0, batteryLevel, net⟩
  | some b =>
    if 0 < net then
      let canDischarge := min (min batteryLevel (b.maxPowerW / 1000)) net
      ⟨-canDischarge, 0, batteryLevel - canDischarge, net - canDischarge⟩
    else if net < 0 then
      let surplus := -net
      let batteryEfficiency := b.roundTripEfficiency / 100
      let canCharge :=
        min (min ((b.capacityKwh - batteryLevel) / batteryEfficiency)
              (b.maxPowerW / 1000)) surplus
      ⟨canCharge, canCharge * (1 - batteryEfficiency),
        batteryLevel + canCharge * batteryEfficiency, net + canCharge⟩
    else ⟨0, 0, batteryLevel, net⟩

/-- Body of the hourly loop of `runSimulation`: dispatch the battery, split
the remaining net into grid purchase / surplus, and assemble the
`HourlySimResult` that is pushed onto `hourlyResults`. -/
def simHour (battery : Option BatterySpec) (surplusPerKwh : ℚ)
    (batteryLevel : ℚ) (c : HourContext) : HourlySimResult :=
  let net := c.consumption - c.solarProduction
  let d := dispatchHour battery batteryLevel net
  let gridPurchase := if 0 < d.net then d.net else 0
  let gridSurplus := if d.net < 0 then -d.net else 0
  { date := c.date
    hour := c.hour
    consumption := c.consumption
    solarProduction := c.solarProduction
    batteryCharge := d.batteryCharge
    batteryLoss := d.batteryLoss
    batteryLevel := d.batteryLevel
    gridPurchase := gridPurchase
    gridSurplus := gridSurplus
    tariffPeriod := c.tariffPeriod
    energyPrice := c.energyPrice
    powerTermCost := c.powerTermCost
    powerTermPrice := c.powerTermPrice
    energyCost := gridPurchase * c.energyPrice
    surplusValue := gridSurplus * surplusPerKwh }

/-- Hourly loop of `runSimulation` over the (sorted) consumption series,
threading the mutable `batteryLevel` (initialised to 0 by the caller). -/
def simulateHours (battery : Option BatterySpec) (surplusPerKwh : ℚ) :
    ℚ → List HourContext → List HourlySimResult
  | _, [] => []
  | batteryLevel, c :: rest =>
    let hr := simHour battery surplusPerKwh batteryLevel c
    hr :: simulateHours battery surplusPerKwh hr.batteryLevel rest

/-! ## Bill calculator (`billCalculator.ts`) -/

/-- Offer fields read by `calculateBill` and the billing convergence loop,
mirroring the `CompanyOffer` record (fields not consulted by the billing
code — ids, names, prices tables, schedule references — are omitted).
`surplusCompensationCapped` is an optional boolean in the source
(`surplusCompensationCapped?: boolean`), hence `Option Bool` here. -/
structure CompanyOffer where
  surplusCompensationPerKwh : ℚ
  surplusCompensationCapped : Option Bool
  hasVirtualBattery : Bool
  virtualBatteryMonthlyFee : ℚ
  meterRentalPerDay : ℚ
  electricityTaxPercent : ℚ
  ivaPercent : ℚ
deriving DecidableEq

/-- Mirrors the `BillResult` interface together with the
`newVirtualBatteryBalance` extension returned by `calculateBill`.
`totalBeforeVB` additionally exposes the source's local constant of the same
name (the bill total before the virtual-battery credit is applied), which the
specification refers to as the "total before credit". -/
structure BillResult where
  energyCost : ℚ
  surplusGenerated : ℚ
  surplusCompensation : ℚ
  virtualBatteryDepositedEuros : ℚ
  virtualBatteryUsedEuros : ℚ
  virtualBatteryFee : ℚ
  powerTerm : ℚ
  meterRental : ℚ
  electricityTax : ℚ
  iva : ℚ
  total : ℚ
  totalBeforeVB : ℚ
  newVirtualBatteryBalance : ℚ
deriving DecidableEq

/-- Mirrors `EMPTY_BILL` (every monetary field 0). -/
def EMPTY_BILL : BillResult :=
  { energyCost := 0, surplusGenerated := 0, surplusCompensation := 0
    virtualBatteryDepositedEuros := 0, virtualBatteryUsedEuros := 0
    virtualBatteryFee := 0, powerTerm := 0, meterRental := 0
    electricityTax := 0, iva := 0, total := 0, totalBeforeVB := 0
    newVirtualBatteryBalance := 0 }

/-- Mirrors `calculateBill(hourlyResults, offer, virtualBatteryBalance)`.
The JavaScript `Set` of dates is embedded as `List.dedup`; the mutable
`currentBalance` and the two conditional credit movements are written out as
conditionals on `offer.hasVirtualBattery`, exactly following the source's
control flow. -/
def calculateBill (hourlyResults : List HourlySimResult) (offer : CompanyOffer)
    (virtualBatteryBalance : ℚ) : BillResult :=
  if hourlyResults = [] then
    { EMPTY_BILL with newVirtualBatteryBalance := virtualBatteryBalance }
  else
    let energyCost := (hourlyResults.map (·.energyCost)).sum
    let powerTerm := (hourlyResults.map (·.powerTermCost)).sum
    let surplusGenerated := (hourlyResults.map (·.surplusValue)).sum
    let days := ((hourlyResults.map (·.date)).dedup).length
    let capped := offer.surplusCompensationCapped ≠ some false
    let surplusCompensation :=
      if capped then min surplusGenerated energyCost else surplusGenerated
    let virtualBatteryFee :=
      if offer.hasVirtualBattery then offer.virtualBatteryMonthlyFee else 0
    let netEnergyCost := energyCost - surplusCompensation
    let surplusLeftover := surplusGenerated - surplusCompensation
    let meterRental := offer.meterRentalPerDay * days
    let electricityTax := (powerTerm + netEnergyCost) * (offer.electricityTaxPercent / 100)
    let subtotal := netEnergyCost + powerTerm + meterRental + electricityTax + virtualBatteryFee
    let iva := subtotal * (offer.ivaPercent / 100)
    let totalBeforeVB := subtotal + iva
    let virtualBatteryUsedEuros :=
      if offer.hasVirtualBattery then min virtualBatteryBalance totalBeforeVB else 0
    let virtualBatteryDepositedEuros :=
      if offer.hasVirtualBattery then surplusLeftover else 0
    let newBalance :=
      if offer.hasVirtualBattery then
        virtualBatteryBalance - virtualBatteryUsedEuros + surplusLeftover
      else virtualBatteryBalance
    { energyCost := energyCost
      surplusGenerated := surplusGenerated
      surplusCompensation := surplusCompensation
      virtualBatteryDepositedEuros := virtualBatteryDepositedEuros
      virtualBatteryUsedEuros := virtualBatteryUsedEuros
      virtualBatteryFee := virtualBatteryFee
      powerTerm := powerTerm
      meterRental := meterRental
      electricityTax := electricityTax
      iva := iva
      total := totalBeforeVB - virtualBatteryUsedEuros
      totalBeforeVB := totalBeforeVB
      newVirtualBatteryBalance := newBalance }

/-! ## Monthly billing pass and virtual-battery convergence loop
(`runSimulation`, after the hourly loop) -/

/-- Monthly breakdown entry, mirroring the monetary and energy fields of the
`MonthlyBreakdown` interface that the billing pass fills from each month's
bill (the `month` label string and the derived self-consumption quotient are
omitted: monthly groups are passed as plain lists here). -/
structure MonthlyBreakdown where
  energyCost : ℚ
  surplusCompensation : ℚ
  virtualBatteryDepositedEuros : ℚ
  virtualBatteryUsedEuros : ℚ
  virtualBatteryBalance : ℚ
  virtualBatteryFee : ℚ
  powerTerm : ℚ
  meterRental : ℚ
  electricityTax : ℚ
  iva : ℚ
  total : ℚ
deriving DecidableEq

/-- Mirrors the `runBillingPass(startBalance)` closure: bill the sorted
monthly groups in order, threading the virtual-battery balance, and return
the breakdown list together with the year-end balance. -/
def runBillingPass (offer : CompanyOffer) :
    List (List HourlySimResult) → ℚ → List MonthlyBreakdown × ℚ
  | [], balance => ([], balance)
  | hours :: rest, balance =>
    let monthBill := calculateBill hours offer balance
    let balance' := monthBill.newVirtualBatteryBalance
    ({ energyCost := monthBill.energyCost
       surplusCompensation := monthBill.surplusCompensation
       virtualBatteryDepositedEuros := monthBill.virtualBatteryDepositedEuros
       virtualBatteryUsedEuros := monthBill.virtualBatteryUsedEuros
       virtualBatteryBalance := balance'
       virtualBatteryFee := monthBill.virtualBatteryFee
       powerTerm := monthBill.powerTerm
       meterRental := monthBill.meterRental
       electricityTax := monthBill.electricityTax
       iva := monthBill.iva
       total := monthBill.total } :: (runBillingPass offer rest balance').1,
     (runBillingPass offer rest balance').2)

/-- Mirrors the `for (let i = 0; i < 10; i++)` convergence loop run when
`offer.hasVirtualBattery` holds: re-run the billing pass from the current
year-end balance and stop once the balance moves by less than 0.01 between
consecutive passes.  The second component counts the passes the loop ran. -/
def vbLoop (offer : CompanyOffer) (months : List (List HourlySimResult)) :
    Nat → List MonthlyBreakdown × ℚ → (List MonthlyBreakdown × ℚ) × Nat
  | 0, cur => (cur, 0)
  | fuel + 1, cur =>
    let r := runBillingPass offer months cur.2
    if |r.2 - cur.2| < 1 / 100 then (r, 1)
    else
      ((vbLoop offer months fuel r).1, (vbLoop offer months fuel r).2 + 1)

/-- Billing phase of `runSimulation`: one pass from balance 0, then — only
for virtual-battery offers — the bounded convergence loop.  The final `Nat`
is the total number of billing passes executed (initial pass included). -/
def billingPhase (offer : CompanyOffer) (months : List (List HourlySimResult)) :
    (List MonthlyBreakdown × ℚ) × Nat :=
  let r0 := runBillingPass offer months 0
  if offer.hasVirtualBattery then
    ((vbLoop offer months 10 r0).1, (vbLoop offer months 10 r0).2 + 1)
  else (r0, 1)

/-- Year-end balance of the i-th repeated billing pass: `passBalance offer
months 0` is the balance after the initial pass (start balance 0), and pass
`i + 1` starts from the balance pass `i` ended with.  This is the sequence
the convergence loop walks. -/
def passBalance (offer : CompanyOffer) (months : List (List HourlySimResult)) :
    Nat → ℚ
  | 0 => (runBillingPass offer months 0).2
  | i + 1 => (runBillingPass offer months (passBalance offer months i)).2

/-! ## Shadow model (`shadows.ts`)

The transcendental functions of `Math` are modelled by an abstract
`TrigModel`; each field stands for one closed-form expression the source
evaluates.  `getSunPosition` (pure trigonometry on hour, month and latitude,
returning `null` when the computed elevation is ≤ 0) is correspondingly
modelled by an `Option SunPos` argument ranging over every value it can
produce. -/

/-- Abstract stand-ins for the `Math` trigonometry used by `shadows.ts`:
`cosDeg θ` for `Math.cos(θ·π/180)`, `tanDeg θ` for `Math.tan(θ·π/180)`,
`atanDeg r` for `Math.atan(r)·180/π`, and `cosQuarter t` for
`Math.cos(t·π/2)`. -/
structure TrigModel where
  cosDeg : ℚ → ℚ
  tanDeg : ℚ → ℚ
  atanDeg : ℚ → ℚ
  cosQuarter : ℚ → ℚ

/-- Sun position as returned by a non-null `getSunPosition` call. -/
structure SunPos where
  elevation : ℚ
  azimuth : ℚ
deriving DecidableEq

inductive ObstacleType where
  | solid
  | transparent
deriving DecidableEq

inductive ObstacleDirection where
  | north
  | south
  | east
  | west
deriving DecidableEq

/-- Mirrors the `DIRECTION_AZIMUTH` lookup table. -/
def DIRECTION_AZIMUTH : ObstacleDirection → ℚ
  | .north => 0
  | .east => 90
  | .south => 180
  | .west => 270

/-- Mirrors the `Obstacle` record of `db.ts`; the fields the shadow code
guards with `!== undefined` / `?? defaults` (legacy records) are `Option`s. -/
structure Obstacle where
  type : ObstacleType
  transparencyPercent : Option ℚ
  height : ℚ
  azimuthDeg : Option ℚ
  widthM : Option ℚ
  angularWidthDeg : Option ℚ
  distance : ℚ
  direction : Option ObstacleDirection
deriving DecidableEq

/-- Truncation toward zero, the rounding JavaScript's `%` operator applies. -/
def ratTrunc (q : ℚ) : ℤ :=
  if 0 ≤ q then ⌊q⌋ else ⌈q⌉

/-- JavaScript remainder `x % m` (sign follows the dividend). -/
def jsRem (x m : ℚ) : ℚ :=
  x - m * (ratTrunc (x / m) : ℚ)

/-- Mirrors `angleDifference(a, b)`:
`Math.abs(((a - b + 540) % 360) - 180)`. -/
def angleDifference (a b : ℚ) : ℚ :=
  |jsRem (a - b + 540) 360 - 180|

/-- The `obstacleAzimuth` local: the new `azimuthDeg` field when present,
else the legacy cardinal `direction` (defaulting to `south`) via the lookup
table. -/
def obstacleAzimuthOf (o : Obstacle) : ℚ :=
  match o.azimuthDeg with
  | some a => a
  | none => DIRECTION_AZIMUTH (o.direction.getD .south)

/-- The `halfWidth` local: angular half-width from the physical width when
positive, else half the legacy `angularWidthDeg`, else 45°. -/
def halfWidthOf (T : TrigModel) (o : Obstacle) : ℚ :=
  if 0 < o.widthM.getD 0 ∧ 0 < o.distance then
    T.atanDeg (o.widthM.getD 0 / 2 / o.distance)
  else
    match o.angularWidthDeg with
    | some a => a / 2
    | none => 45

/-- The `shadeFraction` local: fully shaded when panel dimensions are
unknown (vertical extent 0), else the clamped shaded fraction of the panel's
vertical extent. -/
def shadeFractionOf (hShadow panelHeight panelHeightVertical : ℚ) : ℚ :=
  if panelHeightVertical = 0 then 1
  else min 1 (max 0 ((hShadow - panelHeight) / panelHeightVertical))

/-- Attenuation contributed by one obstacle: the value the loop body of
`calculateShadowFactor` multiplies `factor` by (1 for the `continue`
branches). -/
def obstacleShadeFactor (T : TrigModel) (sun : SunPos)
    (panelHeight panelHeightVertical : ℚ) (o : Obstacle) : ℚ :=
  if o.distance ≤ 0 then 1
  else
    let halfWidth := halfWidthOf T o
    let azDiff := angleDifference sun.azimuth (obstacleAzimuthOf o)
    if halfWidth < azDiff then 1
    else
      let hShadow := o.height - o.distance * T.tanDeg sun.elevation
      if hShadow ≤ panelHeight then 1
      else
        let shadeFraction := shadeFractionOf hShadow panelHeight panelHeightVertical
        let angularFactor := T.cosQuarter (azDiff / halfWidth)
        if o.type = .solid then 1 - shadeFraction * angularFactor
        else 1 - shadeFraction * angularFactor * (1 - o.transparencyPercent.getD 50 / 100)

/-- Mirrors `calculateShadowFactor(obstacles, hour, month, latitude,
panelHeight, panelPhysicalHeightM, panelTiltDeg)`; the sun position that the
source computes from `(hour, month, latitude)` is passed in as `sun`, and
`factor *= ...` over the loop becomes a product of per-obstacle factors. -/
def calculateShadowFactor (T : TrigModel) (obstacles : List Obstacle)
    (sun : Option SunPos) (panelHeight panelPhysicalHeightM panelTiltDeg : ℚ) : ℚ :=
  if obstacles = [] then 1
  else
    match sun with
    | none => 1
    | some sun =>
      let panelHeightVertical := panelPhysicalHeightM * T.cosDeg panelTiltDeg
      (obstacles.map (obstacleShadeFactor T sun panelHeight panelHeightVertical)).prod

/-! ## Solar production indexer (`buildSolarIndex` in the orchestrator) -/

/-- Raw PVGIS sample after `parsePVGISTime`: the `(month, day, hour)` local
key and UTC hour that the string timestamp parses to, plus the raw power `P`
in watts.  The timestamp parsing itself is pure bookkeeping prior to the
keying and scaling logic and is embedded as these precomputed fields. -/
structure PVGISRecord where
  month : Nat
  day : Nat
  hour : Nat
  utcHour : Nat
  P : ℚ
deriving DecidableEq

/-- One panel group's cached raw-yield data together with the group fields
`buildSolarIndex` reads for rescaling: the configured `peakPowerWp` and the
stored `fetchParams?.peakPowerKw`. -/
structure PVGISGroupData where
  peakPowerWp : ℚ
  fetchPeakKw : Option ℚ
  hourlyData : List PVGISRecord
deriving DecidableEq

/-- Mirrors `const currentPeakKw = (group?.peakPowerWp ?? 0) / 1000`. -/
def currentPeakKw (g : PVGISGroupData) : ℚ :=
  g.peakPowerWp / 1000

/-- Mirrors `const storedPeakKw = groupData.fetchParams?.peakPowerKw ?? currentPeakKw`. -/
def storedPeakKw (g : PVGISGroupData) : ℚ :=
  g.fetchPeakKw.getD (currentPeakKw g)

/-- Mirrors `const peakPowerScale = storedPeakKw > 0 ? currentPeakKw / storedPeakKw : 1`. -/
def peakPowerScale (g : PVGISGroupData) : ℚ :=
  if 0 < storedPeakKw g then currentPeakKw g / storedPeakKw g else 1

/-- The `(month, day, hour)` key a raw sample is accumulated under. -/
def recordKey (r : PVGISRecord) : Nat × Nat × Nat :=
  (r.month, r.day, r.hour)

/-- Mirrors `const kwhThisHour = Math.max(0, (record.P / 1000) * peakPowerScale * shadowFactor)`;
`shadow` abstracts the `calculateShadowFactor` call, a fixed function of the
record's UTC hour and month and the group's obstacle geometry. -/
def kwhThisHour (shadow : PVGISRecord → ℚ) (scale : ℚ) (r : PVGISRecord) : ℚ :=
  max 0 (r.P / 1000 * scale * shadow r)

/-- Per-key accumulated sum for one group (the `sums[key]` map). -/
def groupSum (shadow : PVGISRecord → ℚ) (g : PVGISGroupData)
    (key : Nat × Nat × Nat) : ℚ :=
  ((g.hourlyData.filter (fun r => recordKey r = key)).map
    (kwhThisHour shadow (peakPowerScale g))).sum

/-- Per-key sample count for one group (the `counts[key]` map). -/
def groupCount (g : PVGISGroupData) (key : Nat × Nat × Nat) : ℚ :=
  ((g.hourlyData.filter (fun r => recordKey r = key)).length : ℚ)

/-- The group's contribution `sums[key] / counts[key]` added into
`groupTotals`; a key the group has no samples for contributes 0 (in the
source the key is simply absent and the index lookup defaults to 0, here
`0 / 0 = 0`). -/
def groupContribution (shadow : PVGISRecord → ℚ) (g : PVGISGroupData)
    (key : Nat × Nat × Nat) : ℚ :=
  groupSum shadow g key / groupCount g key

/-- Mirrors `buildSolarIndex`: the installation-wide index entry is the sum
of the per-group averaged contributions. -/
def buildSolarIndex (shadow : PVGISRecord → ℚ) (groups : List PVGISGroupData)
    (key : Nat × Nat × Nat) : ℚ :=
  (groups.map (fun g => groupContribution shadow g key)).sum

/-- A panel group with its configured peak power scaled by `k`, the raw data
and stored fetch parameters unchanged. -/
def scaleGroupPeak (k : ℚ) (g : PVGISGroupData) : PVGISGroupData :=
  { g with peakPowerWp := k * g.peakPowerWp }

/-! ## Theorems: tariff period resolver -/

/-- C3.  For every date and every hour 1–24, the regulated 2.0TD resolver is
total (always returns one of `"valle"`, `"punta"`, `"llano"`), returns
`"valle"` on weekends and fixed national holidays, and otherwise maps hours
1–8 to `"valle"`, 11–14 and 19–22 to `"punta"` and all remaining hours to
`"llano"`; in particular hour 5 of a non-holiday Wednesday is `"valle"`,
hour 20 of that Wednesday is `"punta"`, and any hour of a Saturday is
`"valle"`. -/
theorem getTariffPeriod_spec (y m d h : Nat) (h1 : 1 ≤ h) (h24 : h ≤ 24) :
    (getTariffPeriod y m d h = "valle" ∨ getTariffPeriod y m d h = "punta" ∨
      getTariffPeriod y m d h = "llano")
    ∧ (isHolidayOrWeekend y m d = true → getTariffPeriod y m d h = "valle")
    ∧ (isHolidayOrWeekend y m d = false →
        ((1 ≤ h ∧ h ≤ 8 → getTariffPeriod y m d h = "valle")
          ∧ ((11 ≤ h ∧ h ≤ 14) ∨ (19 ≤ h ∧ h ≤ 22) → getTariffPeriod y m d h = "punta")
          ∧ (¬(1 ≤ h ∧ h ≤ 8) → ¬((11 ≤ h ∧ h ≤ 14) ∨ (19 ≤ h ∧ h ≤ 22)) →
              getTariffPeriod y m d h = "llano")))
    ∧ (dayOfWeek y m d = 3 → isNationalHoliday m d = false →
        getTariffPeriod y m d 5 = "valle" ∧ getTariffPeriod y m d 20 = "punta")
    ∧ (dayOfWeek y m d = 6 → getTariffPeriod y m d h = "valle") := by
  refine ⟨?_, ?_, ?_, ?_, ?_⟩
  · unfold getTariffPeriod
    by_cases hcase : (isWeekend y m d || isNationalHoliday m d) = true
    · simp [hcase]
    · simp only [Bool.not_eq_true] at hcase
      by_cases h8 : 1 ≤ h ∧ h ≤ 8
      · simp [hcase, h8]
      · by_cases hp : (11 ≤ h ∧ h ≤ 14) ∨ (19 ≤ h ∧ h ≤ 22) <;>
          simp [hcase, h8, hp]
  · intro hw
    simp only [isHolidayOrWeekend] at hw
    simp [getTariffPeriod, hw]
  · intro hw
    simp only [isHolidayOrWeekend, Bool.or_eq_false_iff] at hw
    unfold getTariffPeriod
    rw [hw.1, hw.2]
    refine ⟨?_, ?_, ?_⟩
    · intro hh
      simp [hh]
    · intro hh
      have hnot : ¬(1 ≤ h ∧ h ≤ 8) := by omega
      simp [hnot, hh]
    · intro hh1 hh2
      simp [hh1, hh2]
  · intro hdow hhol
    have hw : isWeekend y m d = false := by
      simp [isWeekend, hdow]
    constructor <;> simp [getTariffPeriod, hw, hhol]
  · intro hdow
    have hw : isWeekend y m d = true := by
      simp [isWeekend, hdow]
    simp [getTariffPeriod, hw]

/-- Witness for C3: 2024-01-10 is a non-holiday Wednesday; hours 5 and 20
resolve to `"valle"` and `"punta"`. -/
theorem getTariffPeriod_spec_witness :
    getTariffPeriod 2024 1 10 5 = "valle" ∧ getTariffPeriod 2024 1 10 20 = "punta" :=
  (getTariffPeriod_spec 2024 1 10 20 (by decide) (by decide)).2.2.2.1
    (by decide) (by decide)

/-! ## Theorems: battery dispatch -/

/-- Dispatch leaves the level inside `[0, capacityKwh]` whenever it starts
there, for a battery with non-negative capacity and power and positive
round-trip efficiency. -/
theorem dispatchHour_level_bounds (b : BatterySpec) (hcap : 0 ≤ b.capacityKwh)
    (hpow : 0 ≤ b.maxPowerW) (heff : 0 < b.roundTripEfficiency)
    (level net : ℚ) (h0 : 0 ≤ level) (h1 : level ≤ b.capacityKwh) :
    0 ≤ (dispatchHour (some b) level net).batteryLevel ∧
      (dispatchHour (some b) level net).batteryLevel ≤ b.capacityKwh := by
  have hkw : (0 : ℚ) ≤ b.maxPowerW / 1000 := by positivity
  unfold dispatchHour
  split_ifs with hpos hneg
  · -- discharge branch
    have hle : min (min level (b.maxPowerW / 1000)) net ≤ level :=
      le_trans (min_le_left _ _) (min_le_left _ _)
    have hge : 0 ≤ min (min level (b.maxPowerW / 1000)) net :=
      le_min (le_min h0 hkw) hpos.le
    exact ⟨by simpa using sub_nonneg.mpr hle, by simp; linarith⟩
  · -- charge branch
    have he0 : (0 : ℚ) < b.roundTripEfficiency / 100 := by positivity
    have hdiv : (0 : ℚ) ≤ (b.capacityKwh - level) / (b.roundTripEfficiency / 100) :=
      div_nonneg (by linarith) he0.le
    have hge : 0 ≤ min (min ((b.capacityKwh - level) / (b.roundTripEfficiency / 100))
        (b.maxPowerW / 1000)) (-net) :=
      le_min (le_min hdiv hkw) (by linarith)
    have hle : min (min ((b.capacityKwh - level) / (b.roundTripEfficiency / 100))
          (b.maxPowerW / 1000)) (-net)
        ≤ (b.capacityKwh - level) / (b.roundTripEfficiency / 100) :=
      le_trans (min_le_left _ _) (min_le_left _ _)
    have hmul : min (min ((b.capacityKwh - level) / (b.roundTripEfficiency / 100))
          (b.maxPowerW / 1000)) (-net) * (b.roundTripEfficiency / 100)
        ≤ b.capacityKwh - level := by
      calc min (min ((b.capacityKwh - level) / (b.roundTripEfficiency / 100))
              (b.maxPowerW / 1000)) (-net) * (b.roundTripEfficiency / 100)
          ≤ (b.capacityKwh - level) / (b.roundTripEfficiency / 100) *
              (b.roundTripEfficiency / 100) :=
            mul_le_mul_of_nonneg_right hle he0.le
        _ = b.capacityKwh - level := div_mul_cancel₀ _ (ne_of_gt he0)
    constructor
    · simp only
      nlinarith [mul_nonneg hge he0.le]
    · simp only
      linarith
  · exact ⟨h0, h1⟩

/-- The `net` local after dispatch equals the incoming net plus the (signed)
battery charge. -/
theorem dispatchHour_net_eq (battery : Option BatterySpec) (level net : ℚ) :
    (dispatchHour battery level net).net
      = net + (dispatchHour battery level net).batteryCharge := by
  cases battery with
  | none => simp [dispatchHour]
  | some b =>
    unfold dispatchHour
    split_ifs <;> simp <;> ring

/-- The hourly loop body forwards the dispatched level into the stored
`batteryLevel` field. -/
theorem simHour_batteryLevel (battery : Option BatterySpec) (sp level : ℚ)
    (c : HourContext) :
    (simHour battery sp level c).batteryLevel
      = (dispatchHour battery level (c.consumption - c.solarProduction)).batteryLevel :=
  rfl

/-- Every result of the hourly loop is the loop body applied to some level
and some input hour. -/
theorem simulateHours_mem (battery : Option BatterySpec) (sp : ℚ) :
    ∀ (inputs : List HourContext) (level : ℚ) (hr : HourlySimResult),
      hr ∈ simulateHours battery sp level inputs →
      ∃ lvl c, hr = simHour battery sp lvl c := by
  intro inputs
  induction inputs with
  | nil => intro level hr hmem; simp [simulateHours] at hmem
  | cons c rest ih =>
    intro level hr hmem
    rw [simulateHours] at hmem
    rcases List.mem_cons.mp hmem with rfl | hmem
    · exact ⟨level, c, rfl⟩
    · exact ih _ hr hmem

/-- Invariant of the hourly loop: if the level enters `[0, capacityKwh]`, so
is the `batteryLevel` of every produced result. -/
theorem simulateHours_level_invariant (b : BatterySpec) (hcap : 0 ≤ b.capacityKwh)
    (hpow : 0 ≤ b.maxPowerW) (heff : 0 < b.roundTripEfficiency) (sp : ℚ) :
    ∀ (inputs : List HourContext) (level : ℚ), 0 ≤ level → level ≤ b.capacityKwh →
      ∀ hr ∈ simulateHours (some b) sp level inputs,
        0 ≤ hr.batteryLevel ∧ hr.batteryLevel ≤ b.capacityKwh := by
  intro inputs
  induction inputs with
  | nil => intro level _ _ hr hmem; simp [simulateHours] at hmem
  | cons c rest ih =>
    intro level h0 h1 hr hmem
    have hstep := dispatchHour_level_bounds b hcap hpow heff level
      (c.consumption - c.solarProduction) h0 h1
    rw [← simHour_batteryLevel (some b) sp level c] at hstep
    rw [simulateHours] at hmem
    rcases List.mem_cons.mp hmem with rfl | hmem
    · exact hstep
    · exact ih _ hstep.1 hstep.2 hr hmem

/-- C1.  For a battery with non-negative capacity and maximum power and
round-trip efficiency in (0, 100], the simulated level starts at 0 and the
`batteryLevel` recorded after every hour's dispatch stays within
`[0, capacityKwh]`, for every consumption/production series. -/
theorem battery_level_within_capacity (b : BatterySpec)
    (hcap : 0 ≤ b.capacityKwh) (hpow : 0 ≤ b.maxPowerW)
    (heff0 : 0 < b.roundTripEfficiency) (heff100 : b.roundTripEfficiency ≤ 100)
    (sp : ℚ) (inputs : List HourContext) :
    ∀ hr ∈ simulateHours (some b) sp 0 inputs,
      0 ≤ hr.batteryLevel ∧ hr.batteryLevel ≤ b.capacityKwh :=
  simulateHours_level_invariant b hcap hpow heff0 sp inputs 0 le_rfl hcap

/-- Witness for C1: a 10 kWh / 5000 W / 90 % battery over a two-hour series
(deficit then surplus), checked on the first produced hour. -/
theorem battery_level_within_capacity_witness :
    0 ≤ (simHour (some ⟨10, 5000, 90⟩) (1/10) 0
          ⟨"2024-01-01", 1, 2, 0, "valle", 1/10, 0, 0⟩).batteryLevel
      ∧ (simHour (some ⟨10, 5000, 90⟩) (1/10) 0
          ⟨"2024-01-01", 1, 2, 0, "valle", 1/10, 0, 0⟩).batteryLevel ≤ (10 : ℚ) :=
  battery_level_within_capacity ⟨10, 5000, 90⟩ (by norm_num) (by norm_num)
    (by norm_num) (by norm_num) (1/10)
    [⟨"2024-01-01", 1, 2, 0, "valle", 1/10, 0, 0⟩,
     ⟨"2024-01-01", 2, 0, 3, "valle", 1/10, 0, 0⟩]
    _ (List.mem_cons_self _ _)

/-- Energy balance of a single loop body application. -/
theorem simHour_balance (battery : Option BatterySpec) (sp level : ℚ)
    (c : HourContext) :
    (simHour battery sp level c).consumption + (simHour battery sp level c).batteryCharge
      = (simHour battery sp level c).solarProduction
        + (simHour battery sp level c).gridPurchase
        - (simHour battery sp level c).gridSurplus := by
  have hnet := dispatchHour_net_eq battery level (c.consumption - c.solarProduction)
  simp only [simHour]
  split_ifs with hp hs <;> linarith

/-- C2.  Every hour produced by the simulation satisfies
`consumption + batteryCharge = solarProduction + gridPurchase − gridSurplus`,
with `batteryCharge` negative when discharging and positive (grid-side,
before the efficiency loss) when charging. -/
theorem hourly_energy_balance (battery : Option BatterySpec) (sp : ℚ)
    (inputs : List HourContext) :
    ∀ hr ∈ simulateHours battery sp 0 inputs,
      hr.consumption + hr.batteryCharge
        = hr.solarProduction + hr.gridPurchase - hr.gridSurplus := by
  intro hr hmem
  obtain ⟨lvl, c, rfl⟩ := simulateHours_mem battery sp inputs 0 hr hmem
  exact simHour_balance battery sp lvl c

/-- Witness for C2: concrete two-hour simulation with a battery, checked on
the first produced hour. -/
theorem hourly_energy_balance_witness :
    (simHour (some ⟨10, 5000, 90⟩) (1/10) 0
        ⟨"2024-01-01", 1, 2, 0, "valle", 1/10, 0, 0⟩).consumption
      + (simHour (some ⟨10, 5000, 90⟩) (1/10) 0
          ⟨"2024-01-01", 1, 2, 0, "valle", 1/10, 0, 0⟩).batteryCharge
      = (simHour (some ⟨10, 5000, 90⟩) (1/10) 0
          ⟨"2024-01-01", 1, 2, 0, "valle", 1/10, 0, 0⟩).solarProduction
        + (simHour (some ⟨10, 5000, 90⟩) (1/10) 0
            ⟨"2024-01-01", 1, 2, 0, "valle", 1/10, 0, 0⟩).gridPurchase
        - (simHour (some ⟨10, 5000, 90⟩) (1/10) 0
            ⟨"2024-01-01", 1, 2, 0, "valle", 1/10, 0, 0⟩).gridSurplus :=
  hourly_energy_balance (some ⟨10, 5000, 90⟩) (1/10)
    [⟨"2024-01-01", 1, 2, 0, "valle", 1/10, 0, 0⟩,
     ⟨"2024-01-01", 2, 0, 3, "valle", 1/10, 0, 0⟩]
    _ (List.mem_cons_self _ _)

/-- Grid split of a single loop body application: both flows non-negative
and never simultaneously nonzero. -/
theorem simHour_grid_split (battery : Option BatterySpec) (sp level : ℚ)
    (c : HourContext) :
    0 ≤ (simHour battery sp level c).gridPurchase
      ∧ 0 ≤ (simHour battery sp level c).gridSurplus
      ∧ (simHour battery sp level c).gridPurchase
          * (simHour battery sp level c).gridSurplus = 0 := by
  simp only [simHour]
  split_ifs with hp hs <;>
    refine ⟨by linarith, by linarith, by ring_nf <;> linarith⟩

/-- C10.  In every simulated hour, `gridPurchase ≥ 0`, `gridSurplus ≥ 0` and
their product is 0: a single hour never both imports and exports. -/
theorem grid_flows_sign_exclusive (battery : Option BatterySpec) (sp : ℚ)
    (inputs : List HourContext) :
    ∀ hr ∈ simulateHours battery sp 0 inputs,
      0 ≤ hr.gridPurchase ∧ 0 ≤ hr.gridSurplus
        ∧ hr.gridPurchase * hr.gridSurplus = 0 := by
  intro hr hmem
  obtain ⟨lvl, c, rfl⟩ := simulateHours_mem battery sp inputs 0 hr hmem
  exact simHour_grid_split battery sp lvl c

/-- Witness for C10: concrete two-hour simulation without a battery, checked
on the first produced hour. -/
theorem grid_flows_sign_exclusive_witness :
    0 ≤ (simHour none (1/10) 0
          ⟨"2024-01-01", 1, 2, 0, "valle", 1/10, 0, 0⟩).gridPurchase
      ∧ 0 ≤ (simHour none (1/10) 0
          ⟨"2024-01-01", 1, 2, 0, "valle", 1/10, 0, 0⟩).gridSurplus
      ∧ (simHour none (1/10) 0
            ⟨"2024-01-01", 1, 2, 0, "valle", 1/10, 0, 0⟩).gridPurchase
          * (simHour none (1/10) 0
              ⟨"2024-01-01", 1, 2, 0, "valle", 1/10, 0, 0⟩).gridSurplus = 0 :=
  grid_flows_sign_exclusive none (1/10)
    [⟨"2024-01-01", 1, 2, 0, "valle", 1/10, 0, 0⟩,
     ⟨"2024-01-01", 2, 0, 3, "valle", 1/10, 0, 0⟩]
    _ (List.mem_cons_self _ _)

/-! ## Theorems: bill calculator -/

/-- C5.  `calculateBill` returns
`surplusCompensation = min surplusGenerated energyCost` whenever
`surplusCompensationCapped` is not `false` (the default), hence
`surplusCompensation ≤ energyCost` under the cap, and
`surplusCompensation = surplusGenerated` when the cap is disabled. -/
theorem surplusCompensation_cap_spec (hrs : List HourlySimResult)
    (offer : CompanyOffer) (b : ℚ) :
    (offer.surplusCompensationCapped ≠ some false →
      (calculateBill hrs offer b).surplusCompensation
          = min (calculateBill hrs offer b).surplusGenerated
              (calculateBill hrs offer b).energyCost
        ∧ (calculateBill hrs offer b).surplusCompensation
            ≤ (calculateBill hrs offer b).energyCost)
    ∧ (offer.surplusCompensationCapped = some false →
        (calculateBill hrs offer b).surplusCompensation
          = (calculateBill hrs offer b).surplusGenerated) := by
  by_cases hempty : hrs = []
  · subst hempty
    exact ⟨fun _ => by simp [calculateBill, EMPTY_BILL], fun _ => by
      simp [calculateBill, EMPTY_BILL]⟩
  · constructor
    · intro hc
      constructor
      · simp [calculateBill, hempty, hc]
      · simp [calculateBill, hempty, hc, min_le_right]
    · intro hc
      simp [calculateBill, hempty, hc]

/-- Witness for C5: a one-hour month with energy cost 2 and surplus value 3,
billed under a capped offer (`none`, the default) and an uncapped offer
(`some false`). -/
theorem surplusCompensation_cap_spec_witness :
    ((calculateBill [⟨"2024-01-01", 1, 0, 0, 0, 0, 0, 0, 0, "flat", 0, 0, 0, 2, 3⟩]
          ⟨1, none, false, 0, 0, 0, 0⟩ 0).surplusCompensation
        = min (calculateBill [⟨"2024-01-01", 1, 0, 0, 0, 0, 0, 0, 0, "flat", 0, 0, 0, 2, 3⟩]
              ⟨1, none, false, 0, 0, 0, 0⟩ 0).surplusGenerated
            (calculateBill [⟨"2024-01-01", 1, 0, 0, 0, 0, 0, 0, 0, "flat", 0, 0, 0, 2, 3⟩]
              ⟨1, none, false, 0, 0, 0, 0⟩ 0).energyCost
      ∧ (calculateBill [⟨"2024-01-01", 1, 0, 0, 0, 0, 0, 0, 0, "flat", 0, 0, 0, 2, 3⟩]
            ⟨1, none, false, 0, 0, 0, 0⟩ 0).surplusCompensation
          ≤ (calculateBill [⟨"2024-01-01", 1, 0, 0, 0, 0, 0, 0, 0, "flat", 0, 0, 0, 2, 3⟩]
              ⟨1, none, false, 0, 0, 0, 0⟩ 0).energyCost)
    ∧ (calculateBill [⟨"2024-01-01", 1, 0, 0, 0, 0, 0, 0, 0, "flat", 0, 0, 0, 2, 3⟩]
          ⟨1, some false, false, 0, 0, 0, 0⟩ 0).surplusCompensation
        = (calculateBill [⟨"2024-01-01", 1, 0, 0, 0, 0, 0, 0, 0, "flat", 0, 0, 0, 2, 3⟩]
            ⟨1, some false, false, 0, 0, 0, 0⟩ 0).surplusGenerated :=
  ⟨(surplusCompensation_cap_spec _ ⟨1, none, false, 0, 0, 0, 0⟩ 0).1 (by decide),
   (surplusCompensation_cap_spec _ ⟨1, some false, false, 0, 0, 0, 0⟩ 0).2 rfl⟩

/-- C8.  On an empty month, `calculateBill` returns an all-zero bill and
leaves the virtual-battery balance exactly unchanged, for every offer and
every starting balance. -/
theorem calculateBill_empty (offer : CompanyOffer) (b : ℚ) :
    (calculateBill [] offer b).energyCost = 0
    ∧ (calculateBill [] offer b).surplusGenerated = 0
    ∧ (calculateBill [] offer b).surplusCompensation = 0
    ∧ (calculateBill [] offer b).powerTerm = 0
    ∧ (calculateBill [] offer b).meterRental = 0
    ∧ (calculateBill [] offer b).electricityTax = 0
    ∧ (calculateBill [] offer b).iva = 0
    ∧ (calculateBill [] offer b).virtualBatteryFee = 0
    ∧ (calculateBill [] offer b).virtualBatteryDepositedEuros = 0
    ∧ (calculateBill [] offer b).virtualBatteryUsedEuros = 0
    ∧ (calculateBill [] offer b).total = 0
    ∧ (calculateBill [] offer b).newVirtualBatteryBalance = b := by
  simp [calculateBill, EMPTY_BILL]

/-! ## Theorems: billing phase and virtual-battery convergence -/

/-- With the virtual battery disabled, a single bill applies no credit, its
total is the total before credit and the balance passes through unchanged. -/
theorem calculateBill_noVB (offer : CompanyOffer)
    (hvb : offer.hasVirtualBattery = false) (hrs : List HourlySimResult) (b : ℚ) :
    (calculateBill hrs offer b).virtualBatteryUsedEuros = 0
    ∧ (calculateBill hrs offer b).virtualBatteryDepositedEuros = 0
    ∧ (calculateBill hrs offer b).total = (calculateBill hrs offer b).totalBeforeVB
    ∧ (calculateBill hrs offer b).newVirtualBatteryBalance = b := by
  by_cases hempty : hrs = [] <;> simp [calculateBill, hempty, hvb, EMPTY_BILL]

/-- With the virtual battery disabled, a billing pass ends with its starting
balance and every breakdown entry records zero credit movements. -/
theorem runBillingPass_noVB (offer : CompanyOffer)
    (hvb : offer.hasVirtualBattery = false) :
    ∀ (months : List (List HourlySimResult)) (b : ℚ),
      (runBillingPass offer months b).2 = b
      ∧ ∀ mb ∈ (runBillingPass offer months b).1,
          mb.virtualBatteryUsedEuros = 0 ∧ mb.virtualBatteryDepositedEuros = 0
            ∧ mb.virtualBatteryBalance = b := by
  intro months
  induction months with
  | nil => intro b; simp [runBillingPass]
  | cons hours rest ih =>
    intro b
    have hbill := calculateBill_noVB offer hvb hours b
    have hb' : (calculateBill hours offer b).newVirtualBatteryBalance = b :=
      hbill.2.2.2
    refine ⟨?_, ?_⟩
    · simp only [runBillingPass, hb']
      exact (ih b).1
    · intro mb hmb
      simp only [runBillingPass, hb', List.mem_cons] at hmb
      rcases hmb with rfl | hmb
      · exact ⟨hbill.1, hbill.2.1, rfl⟩
      · exact (ih b).2 mb hmb

/-- C6.  For an offer without a virtual battery, the billing phase performs
exactly one pass, reports a zero virtual-battery balance, every month's
breakdown applies zero credit, and every bill's total equals its total
before credit. -/
theorem no_virtual_battery_single_pass (offer : CompanyOffer)
    (hvb : offer.hasVirtualBattery = false) (months : List (List HourlySimResult)) :
    (billingPhase offer months).2 = 1
    ∧ (billingPhase offer months).1.2 = 0
    ∧ (∀ mb ∈ (billingPhase offer months).1.1,
        mb.virtualBatteryUsedEuros = 0 ∧ mb.virtualBatteryDepositedEuros = 0
          ∧ mb.virtualBatteryBalance = 0)
    ∧ ∀ hrs b, (calculateBill hrs offer b).total
        = (calculateBill hrs offer b).totalBeforeVB := by
  have h := runBillingPass_noVB offer hvb months 0
  simp only [billingPhase, hvb, Bool.false_eq_true, if_false]
  exact ⟨trivial, h.1, h.2, fun hrs b => (calculateBill_noVB offer hvb hrs b).2.2.1⟩

/-- Witness for C6: a concrete no-virtual-battery offer over one empty
month. -/
theorem no_virtual_battery_single_pass_witness :
    (billingPhase ⟨1, none, false, 0, 0, 0, 0⟩ [[]]).2 = 1
    ∧ (billingPhase ⟨1, none, false, 0, 0, 0, 0⟩ [[]]).1.2 = 0 :=
  ⟨(no_virtual_battery_single_pass ⟨1, none, false, 0, 0, 0, 0⟩ rfl [[]]).1,
   (no_virtual_battery_single_pass ⟨1, none, false, 0, 0, 0, 0⟩ rfl [[]]).2.1⟩

/-- Behaviour of the bounded convergence loop: starting from the result of
pass `i + 1` it runs between 1 and `fuel` further passes, lands on the
corresponding element of the pass-balance sequence, stops either on fuel
exhaustion or because the last two balances differ by less than 0.01, and
never skips past an unconverged step. -/
theorem vbLoop_spec (offer : CompanyOffer) (months : List (List HourlySimResult)) :
    ∀ (fuel i : Nat) (cur : List MonthlyBreakdown × ℚ),
      cur.2 = passBalance offer months i →
      (vbLoop offer months fuel cur).2 ≤ fuel
      ∧ (1 ≤ fuel → 1 ≤ (vbLoop offer months fuel cur).2)
      ∧ (vbLoop offer months fuel cur).1.2
          = passBalance offer months (i + (vbLoop offer months fuel cur).2)
      ∧ ((vbLoop offer months fuel cur).2 = fuel ∨
          |passBalance offer months (i + (vbLoop offer months fuel cur).2)
            - passBalance offer months (i + (vbLoop offer months fuel cur).2 - 1)|
            < 1 / 100)
      ∧ ∀ j, 1 ≤ j → j < (vbLoop offer months fuel cur).2 →
          ¬(|passBalance offer months (i + j)
              - passBalance offer months (i + j - 1)| < 1 / 100) := by
  intro fuel
  induction fuel with
  | zero =>
    intro i cur hcur
    refine ⟨le_rfl, by omega, by simpa [vbLoop] using hcur, Or.inl rfl, ?_⟩
    intro j hj1 hj2
    simp [vbLoop] at hj2
  | succ fuel ih =>
    intro i cur hcur
    have hr2 : (runBillingPass offer months cur.2).2 = passBalance offer months (i + 1) := by
      rw [hcur]
      rfl
    by_cases hconv : |(runBillingPass offer months cur.2).2 - cur.2| < 1 / 100
    · have hv : vbLoop offer months (fuel + 1) cur = (runBillingPass offer months cur.2, 1) := by
        simp only [vbLoop]
        rw [if_pos hconv]
      rw [hv]
      refine ⟨by omega, fun _ => le_rfl, by simpa using hr2, Or.inr ?_, ?_⟩
      · have e1 : i + 1 - 1 = i := by omega
        rw [e1, ← hr2, ← hcur]
        exact hconv
      · intro j hj1 hj2 _
        simp at hj2
        omega
    · have hv : vbLoop offer months (fuel + 1) cur
          = ((vbLoop offer months fuel (runBillingPass offer months cur.2)).1,
             (vbLoop offer months fuel (runBillingPass offer months cur.2)).2 + 1) := by
        simp only [vbLoop]
        rw [if_neg hconv]
      obtain ⟨IH1, IH2, IH3, IH4, IH5⟩ :=
        ih (i + 1) (runBillingPass offer months cur.2) hr2
      rw [hv]
      refine ⟨by omega, fun _ => by omega, ?_, ?_, ?_⟩
      · rw [show i + ((vbLoop offer months fuel (runBillingPass offer months cur.2)).2 + 1)
            = i + 1 + (vbLoop offer months fuel (runBillingPass offer months cur.2)).2
          from by omega]
        exact IH3
      · rcases IH4 with h | h
        · left; omega
        · right
          rw [show i + ((vbLoop offer months fuel (runBillingPass offer months cur.2)).2 + 1)
              = i + 1 + (vbLoop offer months fuel (runBillingPass offer months cur.2)).2
            from by omega]
          exact h
      · intro j hj1 hjk
        by_cases hj : j = 1
        · subst hj
          intro hcontra
          apply hconv
          rw [hr2, hcur]
          simpa using hcontra
        · have hstep := IH5 (j - 1) (by omega) (by omega)
          rw [show i + 1 + (j - 1) = i + j from by omega] at hstep
          exact hstep

/-- C7.  For a virtual-battery offer, the billing phase runs the initial
pass from balance 0 and then between 1 and 10 repeated passes, each starting
from the previous pass's year-end balance; it reports the balance of its
last pass, it stops exactly at the hard cap (11 passes in total) or as soon
as two consecutive year-end balances differ by less than 0.01, and it never
stops later than that. -/
theorem virtual_battery_iteration_bounded (offer : CompanyOffer)
    (hvb : offer.hasVirtualBattery = true) (months : List (List HourlySimResult)) :
    2 ≤ (billingPhase offer months).2 ∧ (billingPhase offer months).2 ≤ 11
    ∧ (billingPhase offer months).1.2
        = passBalance offer months ((billingPhase offer months).2 - 2 + 1)
    ∧ ((billingPhase offer months).2 = 11 ∨
        |passBalance offer months ((billingPhase offer months).2 - 2 + 1)
          - passBalance offer months ((billingPhase offer months).2 - 2)| < 1 / 100)
    ∧ ∀ j, 1 ≤ j → j + 1 < (billingPhase offer months).2 →
        ¬(|passBalance offer months j - passBalance offer months (j - 1)| < 1 / 100) := by
  have h0 : (runBillingPass offer months 0).2 = passBalance offer months 0 := rfl
  obtain ⟨H1, H2, H3, H4, H5⟩ :=
    vbLoop_spec offer months 10 0 (runBillingPass offer months 0) h0
  have hk1 : 1 ≤ (vbLoop offer months 10 (runBillingPass offer months 0)).2 :=
    H2 (by norm_num)
  have hbp : billingPhase offer months
      = ((vbLoop offer months 10 (runBillingPass offer months 0)).1,
         (vbLoop offer months 10 (runBillingPass offer months 0)).2 + 1) := by
    simp [billingPhase, hvb]
  rw [hbp]
  refine ⟨by simp; omega, by simp; omega, ?_, ?_, ?_⟩
  · rw [show (vbLoop offer months 10 (runBillingPass offer months 0)).2 + 1 - 2 + 1
        = 0 + (vbLoop offer months 10 (runBillingPass offer months 0)).2
      from by omega]
    exact H3
  · rcases H4 with h | h
    · left; omega
    · right
      rw [show (vbLoop offer months 10 (runBillingPass offer months 0)).2 + 1 - 2 + 1
          = 0 + (vbLoop offer months 10 (runBillingPass offer months 0)).2
        from by omega,
        show (vbLoop offer months 10 (runBillingPass offer months 0)).2 + 1 - 2
          = 0 + (vbLoop offer months 10 (runBillingPass offer months 0)).2 - 1
        from by omega]
      exact h
  · intro j hj1 hj2
    have hstep := H5 j hj1 (by simp at hj2; omega)
    rw [show 0 + j = j from by omega] at hstep
    exact hstep

/-- Witness for C7: a virtual-battery offer over an empty year converges
immediately (two passes). -/
theorem virtual_battery_iteration_bounded_witness :
    2 ≤ (billingPhase ⟨1, none, true, 0, 0, 0, 0⟩ []).2
    ∧ (billingPhase ⟨1, none, true, 0, 0, 0, 0⟩ []).2 ≤ 11 :=
  ⟨(virtual_battery_iteration_bounded ⟨1, none, true, 0, 0, 0, 0⟩ rfl []).1,
   (virtual_battery_iteration_bounded ⟨1, none, true, 0, 0, 0, 0⟩ rfl []).2.1⟩

/-! ## Theorems: shadow model -/

/-- The clamped shade fraction always lies in `[0, 1]`. -/
theorem shadeFractionOf_mem (hShadow panelHeight panelHeightVertical : ℚ) :
    0 ≤ shadeFractionOf hShadow panelHeight panelHeightVertical
      ∧ shadeFractionOf hShadow panelHeight panelHeightVertical ≤ 1 := by
  unfold shadeFractionOf
  split_ifs
  · norm_num
  · exact ⟨le_min (by norm_num) (le_max_left 0 _), min_le_left 1 _⟩

/-- Each obstacle's factor lies in `[0, 1]`, provided the angular-falloff
cosine maps `[0, 1]` into `[0, 1]` and the obstacle's transparency (when
present) lies in `[0, 100]`. -/
theorem obstacleShadeFactor_mem (T : TrigModel)
    (hFall : ∀ x : ℚ, 0 ≤ x → x ≤ 1 → 0 ≤ T.cosQuarter x ∧ T.cosQuarter x ≤ 1)
    (sun : SunPos) (panelHeight panelHeightVertical : ℚ) (o : Obstacle)
    (hTrans : ∀ t, o.transparencyPercent = some t → 0 ≤ t ∧ t ≤ 100) :
    0 ≤ obstacleShadeFactor T sun panelHeight panelHeightVertical o
      ∧ obstacleShadeFactor T sun panelHeight panelHeightVertical o ≤ 1 := by
  by_cases hd : o.distance ≤ 0
  · rw [obstacleShadeFactor, if_pos hd]
    norm_num
  · rw [obstacleShadeFactor, if_neg hd]
    by_cases hfar : halfWidthOf T o < angleDifference sun.azimuth (obstacleAzimuthOf o)
    · rw [if_pos hfar]
      norm_num
    · rw [if_neg hfar]
      by_cases hmiss : o.height - o.distance * T.tanDeg sun.elevation ≤ panelHeight
      · rw [if_pos hmiss]
        norm_num
      · rw [if_neg hmiss]
        have haz : 0 ≤ angleDifference sun.azimuth (obstacleAzimuthOf o) :=
          abs_nonneg _
        have hhw : 0 ≤ halfWidthOf T o := le_trans haz (not_lt.mp hfar)
        have hratio : 0 ≤ angleDifference sun.azimuth (obstacleAzimuthOf o) / halfWidthOf T o
            ∧ angleDifference sun.azimuth (obstacleAzimuthOf o) / halfWidthOf T o ≤ 1 := by
          rcases eq_or_lt_of_le hhw with h0 | h0
          · rw [← h0]
            simp
          · exact ⟨div_nonneg haz hhw, (div_le_one h0).2 (not_lt.mp hfar)⟩
        have hang := hFall _ hratio.1 hratio.2
        have hsf := shadeFractionOf_mem (o.height - o.distance * T.tanDeg sun.elevation)
          panelHeight panelHeightVertical
        have hprod : 0 ≤ shadeFractionOf (o.height - o.distance * T.tanDeg sun.elevation)
              panelHeight panelHeightVertical
              * T.cosQuarter (angleDifference sun.azimuth (obstacleAzimuthOf o) / halfWidthOf T o)
            ∧ shadeFractionOf (o.height - o.distance * T.tanDeg sun.elevation)
              panelHeight panelHeightVertical
              * T.cosQuarter (angleDifference sun.azimuth (obstacleAzimuthOf o) / halfWidthOf T o) ≤ 1 :=
          ⟨mul_nonneg hsf.1 hang.1, mul_le_one hsf.2 hang.1 hang.2⟩
        by_cases hsolid : o.type = .solid
        · rw [if_pos hsolid]
          constructor <;> [linarith [hprod.2]; linarith [hprod.1]]
        · rw [if_neg hsolid]
          have ht : 0 ≤ o.transparencyPercent.getD 50 ∧ o.transparencyPercent.getD 50 ≤ 100 := by
            cases hop : o.transparencyPercent with
            | none => norm_num
            | some t => simpa using hTrans t hop
          have htr : 0 ≤ 1 - o.transparencyPercent.getD 50 / 100
              ∧ 1 - o.transparencyPercent.getD 50 / 100 ≤ 1 := by
            constructor
            · have : o.transparencyPercent.getD 50 / 100 ≤ 1 :=
                (div_le_one (by norm_num)).2 ht.2
              linarith
            · have : 0 ≤ o.transparencyPercent.getD 50 / 100 :=
                div_nonneg ht.1 (by norm_num)
              linarith
          have hprod3 : 0 ≤ shadeFractionOf (o.height - o.distance * T.tanDeg sun.elevation)
                panelHeight panelHeightVertical
                * T.cosQuarter (angleDifference sun.azimuth (obstacleAzimuthOf o) / halfWidthOf T o)
                * (1 - o.transparencyPercent.getD 50 / 100)
              ∧ shadeFractionOf (o.height - o.distance * T.tanDeg sun.elevation)
                panelHeight panelHeightVertical
                * T.cosQuarter (angleDifference sun.azimuth (obstacleAzimuthOf o) / halfWidthOf T o)
                * (1 - o.transparencyPercent.getD 50 / 100) ≤ 1 :=
            ⟨mul_nonneg hprod.1 htr.1, mul_le_one hprod.2 htr.1 htr.2⟩
          constructor <;> [linarith [hprod3.2]; linarith [hprod3.1]]

/-- A product of rationals from `[0, 1]` stays in `[0, 1]`. -/
theorem list_prod_mem_unit (l : List ℚ) (h : ∀ x ∈ l, 0 ≤ x ∧ x ≤ 1) :
    0 ≤ l.prod ∧ l.prod ≤ 1 := by
  induction l with
  | nil => simp
  | cons a t ih =>
    have ha := h a (List.mem_cons_self a t)
    have ht := ih fun x hx => h x (List.mem_cons_of_mem a hx)
    rw [List.prod_cons]
    exact ⟨mul_nonneg ha.1 ht.1, mul_le_one ha.2 ht.1 ht.2⟩

/-- C4.  With every transparent obstacle's transparency in `[0, 100]`, the
shadow factor lies in `[0, 1]` for every sun position (hence every hour,
month and latitude) and every panel geometry, and it is exactly 1 with no
obstacles.  `hFall` records the one analytic fact the source relies on:
`cos` maps `[0, π/2]` into `[0, 1]`. -/
theorem calculateShadowFactor_range (T : TrigModel)
    (hFall : ∀ x : ℚ, 0 ≤ x → x ≤ 1 → 0 ≤ T.cosQuarter x ∧ T.cosQuarter x ≤ 1)
    (obstacles : List Obstacle)
    (hTrans : ∀ o ∈ obstacles, ∀ t, o.transparencyPercent = some t → 0 ≤ t ∧ t ≤ 100)
    (sun : Option SunPos) (panelHeight panelPhysicalHeightM panelTiltDeg : ℚ) :
    (0 ≤ calculateShadowFactor T obstacles sun panelHeight panelPhysicalHeightM panelTiltDeg
      ∧ calculateShadowFactor T obstacles sun panelHeight panelPhysicalHeightM panelTiltDeg ≤ 1)
    ∧ (obstacles = [] →
        calculateShadowFactor T obstacles sun panelHeight panelPhysicalHeightM panelTiltDeg = 1) := by
  constructor
  · by_cases hobs : obstacles = []
    · simp [calculateShadowFactor, hobs]
    · cases sun with
      | none => simp [calculateShadowFactor, hobs]
      | some s =>
        rw [calculateShadowFactor, if_neg hobs]
        apply list_prod_mem_unit
        intro x hx
        rw [List.mem_map] at hx
        obtain ⟨o, ho, rfl⟩ := hx
        exact obstacleShadeFactor_mem T hFall s panelHeight _ o
          fun t htt => hTrans o ho t htt
  · intro hobs
    simp [calculateShadowFactor, hobs]

/-- Witness for C4: one transparent obstacle (30 % transparency) due south,
a sun position at 45° elevation, and a linear stand-in for the falloff
cosine. -/
theorem calculateShadowFactor_range_witness :
    0 ≤ calculateShadowFactor ⟨fun _ => 0, fun _ => 0, fun _ => 0, fun x => 1 - x⟩
        [⟨.transparent, some 30, 10, some 180, some 5, none, 10, none⟩]
        (some ⟨45, 180⟩) 0 1 30
      ∧ calculateShadowFactor ⟨fun _ => 0, fun _ => 0, fun _ => 0, fun x => 1 - x⟩
        [⟨.transparent, some 30, 10, some 180, some 5, none, 10, none⟩]
        (some ⟨45, 180⟩) 0 1 30 ≤ 1 :=
  (calculateShadowFactor_range ⟨fun _ => 0, fun _ => 0, fun _ => 0, fun x => 1 - x⟩
    (fun x h0 h1 => ⟨by simpa using h1, by simpa using h0⟩)
    [⟨.transparent, some 30, 10, some 180, some 5, none, 10, none⟩]
    (by
      intro o ho t htt
      rw [List.mem_singleton] at ho
      subst ho
      simp only [Option.some.injEq] at htt
      subst htt
      norm_num)
    (some ⟨45, 180⟩) 0 1 30).1

/-! ## Theorems: solar production indexer -/

/-- C9.  For a group whose stored fetch peak power is positive (and whose
raw samples are non-negative), the indexer's scale factor is exactly
`currentPeakKw / fetchedPeakKw`, and scaling the configured peak power by
any `k > 0` — raw data, shadows and everything else fixed — scales the
group's contribution to every `(month, day, hour)` index entry by exactly
`k`. -/
theorem solar_index_peak_rescaling (g : PVGISGroupData) (shadow : PVGISRecord → ℚ)
    (s : ℚ) (hfetch : g.fetchPeakKw = some s) (hs : 0 < s)
    (hP : ∀ r ∈ g.hourlyData, 0 ≤ r.P) (k : ℚ) (hk : 0 < k)
    (key : Nat × Nat × Nat) :
    peakPowerScale g = currentPeakKw g / s
    ∧ groupContribution shadow (scaleGroupPeak k g) key
        = k * groupContribution shadow g key := by
  have hst : storedPeakKw g = s := by simp [storedPeakKw, hfetch]
  have hst' : storedPeakKw (scaleGroupPeak k g) = s := by
    simp [storedPeakKw, scaleGroupPeak, hfetch]
  have hmain : peakPowerScale g = currentPeakKw g / s := by
    rw [peakPowerScale, hst, if_pos hs]
  refine ⟨hmain, ?_⟩
  have hsc : peakPowerScale (scaleGroupPeak k g) = k * peakPowerScale g := by
    rw [peakPowerScale, hst', if_pos hs, hmain]
    unfold currentPeakKw scaleGroupPeak
    ring
  have hdata : (scaleGroupPeak k g).hourlyData = g.hourlyData := rfl
  have hpoint : ∀ r, kwhThisHour shadow (k * peakPowerScale g) r
      = k * kwhThisHour shadow (peakPowerScale g) r := by
    intro r
    unfold kwhThisHour
    rw [mul_max_of_nonneg _ _ hk.le, mul_zero]
    congr 1
    ring
  unfold groupContribution groupSum groupCount
  rw [hdata, hsc]
  rw [List.map_congr_left fun r _ => hpoint r]
  rw [List.sum_map_mul_left, mul_div_assoc]

/-- Witness for C9: one group, one raw sample of 500 W, stored fetch peak
1 kWp, current peak 2 kWp, scaled by `k = 2`. -/
theorem solar_index_peak_rescaling_witness :
    peakPowerScale ⟨2000, some 1, [⟨1, 1, 12, 11, 500⟩]⟩
        = currentPeakKw ⟨2000, some 1, [⟨1, 1, 12, 11, 500⟩]⟩ / 1
    ∧ groupContribution (fun _ => 1) (scaleGroupPeak 2 ⟨2000, some 1, [⟨1, 1, 12, 11, 500⟩]⟩)
          (1, 1, 12)
        = 2 * groupContribution (fun _ => 1) ⟨2000, some 1, [⟨1, 1, 12, 11, 500⟩]⟩ (1, 1, 12) :=
  solar_index_peak_rescaling ⟨2000, some 1, [⟨1, 1, 12, 11, 500⟩]⟩ (fun _ => 1)
    1 rfl (by norm_num) (by decide) 2 (by norm_num) (1, 1, 12)

end SimuladorSolar
